import Mathlib

/-!
Verification of the SauceDemo Playwright page-object repository.

Strings read from the DOM are modelled as lists of characters, Python
floats as rationals, and fallible operations (a `float(...)` call that can
raise, a Playwright wait that can time out) as `Option` / `Except` values.
Each definition below is a shallow embedding of one function of the
repository; theorems about the frozen claims follow after the definitions.
-/

/-- Model of Python's notion of ASCII whitespace as used by `str.strip()`:
space, tab, newline, carriage return, vertical tab, form feed. -/
def isPySpace (c : Char) : Bool :=
  c.toNat == 32 || c.toNat == 9 || c.toNat == 10 || c.toNat == 13 ||
    c.toNat == 11 || c.toNat == 12

/-- Model of a decimal digit test (`'0'` to `'9'`). -/
def isPyDigit (c : Char) : Bool :=
  48 ≤ c.toNat && c.toNat ≤ 57

/-- Model of Python `str.strip()`: drop leading and trailing whitespace. -/
def pyStrip (l : List Char) : List Char :=
  (((l.dropWhile isPySpace).reverse).dropWhile isPySpace).reverse

/-- Numeric value of a list of decimal digit characters (most significant
first); `digitsVal [] = 0`. -/
def digitsVal (l : List Char) : Nat :=
  l.foldl (fun a c => a * 10 + (c.toNat - 48)) 0

/-- Parse an unsigned decimal numeral `digits [ '.' digits ]` into its scaled
mantissa and the number of fraction digits.  This is the fragment of Python's
`float()` constructor exercised by the repository (price strings such as
`29.99`); signs, exponents and special values are outside the model and
map to `none`, as does any malformed string (where `float()` raises). -/
def parseMant (l : List Char) : Option (Nat × Nat) :=
  match l.dropWhile isPyDigit with
  | [] =>
    if (l.takeWhile isPyDigit).isEmpty then none
    else some (digitsVal (l.takeWhile isPyDigit), 0)
  | c :: frac =>
    if c == '.' && frac.all isPyDigit &&
        (!(l.takeWhile isPyDigit).isEmpty || !frac.isEmpty) then
      some (digitsVal (l.takeWhile isPyDigit) * 10 ^ frac.length + digitsVal frac,
        frac.length)
    else none

/-- Model of Python `float(s)` on the decimal numerals produced by the
application's price labels, returning the exact rational value; `none`
models a raised `ValueError`. -/
def pyFloat (l : List Char) : Option ℚ :=
  (parseMant l).map (fun mk => (mk.1 : ℚ) / 10 ^ mk.2)

/-- Model of Python string comparison `a <= b`: lexicographic on code
points. -/
def pyStrLe : List Char → List Char → Bool
  | [], _ => true
  | _ :: _, [] => false
  | a :: as, b :: bs =>
    if a.toNat < b.toNat then true
    else if b.toNat < a.toNat then false
    else pyStrLe as bs

/-- Boolean test that `l₁` begins `l₂` (used by the substring test below). -/
def listPrefixOf : List Char → List Char → Bool
  | [], _ => true
  | _ :: _, [] => false
  | a :: as, b :: bs => a == b && listPrefixOf as bs

/-- Boolean substring test: model of Playwright's `filter(has_text=needle)`
matching on an element's text `hay`. -/
def textContains : List Char → List Char → Bool
  | [], needle => needle.isEmpty
  | a :: t, needle => listPrefixOf needle (a :: t) || textContains t needle

/-- Model of Python `round(x)` on rationals: round half to even. -/
def roundHalfEven (x : ℚ) : ℤ :=
  if x - Int.floor x < 1/2 then Int.floor x
  else if (1 : ℚ)/2 < x - Int.floor x then Int.floor x + 1
  else if Int.floor x % 2 = 0 then Int.floor x else Int.floor x + 1

/-- Model of Python `round(x, 2)` on rationals. -/
def pyRound2 (x : ℚ) : ℚ :=
  (roundHalfEven (x * 100) : ℚ) / 100

/-- The `PriceSummary` dataclass of `pages/components/price_summary.py`
(and its twin in `pages/components.py`): subtotal, tax and total of a
checkout order, modelled as exact rationals. -/
structure PriceSummary where
  subtotal : ℚ
  tax : ℚ
  total : ℚ

/-- Embedding of `PriceSummary.verify_calculation`: `round(subtotal + tax, 2) ==
round(total, 2)`. -/
def PriceSummary.verify_calculation (p : PriceSummary) : Bool :=
  decide (pyRound2 (p.subtotal + p.tax) = pyRound2 p.total)

/-- Python `sorted` on strings: a stable ascending sort (Timsort),
modelled by the stable `List.mergeSort`. -/
def pySortedStr (l : List (List Char)) : List (List Char) :=
  l.mergeSort pyStrLe

/-- Python `sorted(-, reverse=True)` on strings: comparisons reversed,
ties keep their original order. -/
def pySortedStrRev (l : List (List Char)) : List (List Char) :=
  l.mergeSort (fun a b => pyStrLe b a)

/-- Python `sorted` on floats, modelled on rationals. -/
def pySortedRat (l : List ℚ) : List ℚ :=
  l.mergeSort (fun a b => decide (a ≤ b))

/-- Python `sorted(-, reverse=True)` on floats, modelled on rationals. -/
def pySortedRatRev (l : List ℚ) : List ℚ :=
  l.mergeSort (fun a b => decide (b ≤ a))

/-- The price-collection loop shared verbatim by
`ProductsPage.get_all_product_prices` and `CartPage.get_cart_item_prices`:
each element's text (`none` models a `None` return of `text_content()`) is
skipped when falsy, otherwise stripped, freed of every `$` and passed to
`float`; a parse failure raises, modelled as `none` for the whole call. -/
def parsePricesLoop : List (Option (List Char)) → Option (List ℚ)
  | [] => some []
  | t :: ts =>
    match t with
    | none => parsePricesLoop ts
    | some s =>
      if s.isEmpty then parsePricesLoop ts
      else
        match pyFloat ((pyStrip s).filter (fun c => !(c == '$'))),
            parsePricesLoop ts with
        | some p, some ps => some (p :: ps)
        | _, _ => none

namespace ProductsPage

/-- Embedding of `ProductsPage.get_all_product_prices` of `pages/products_page.py`,
as a function of the price texts currently displayed. -/
def get_all_product_prices (texts : List (Option (List Char))) :
    Option (List ℚ) :=
  parsePricesLoop texts

/-- Embedding of `ProductsPage.verify_products_sorted_alphabetically_asc`:
`names == sorted(names)`. -/
def verify_products_sorted_alphabetically_asc (names : List (List Char)) :
    Bool :=
  names == pySortedStr names

/-- Embedding of `ProductsPage.verify_products_sorted_alphabetically_desc`:
`names == sorted(names, reverse=True)`. -/
def verify_products_sorted_alphabetically_desc (names : List (List Char)) :
    Bool :=
  names == pySortedStrRev names

/-- Embedding of `ProductsPage.verify_products_sorted_by_price_asc`:
`prices == sorted(prices)`. -/
def verify_products_sorted_by_price_asc (prices : List ℚ) : Bool :=
  prices == pySortedRat prices

/-- Embedding of `ProductsPage.verify_products_sorted_by_price_desc`:
`prices == sorted(prices, reverse=True)`. -/
def verify_products_sorted_by_price_desc (prices : List ℚ) : Bool :=
  prices == pySortedRatRev prices

end ProductsPage

/-- Outcome of one bounded `wait_for(state="visible", timeout=5000)` call:
`ok` when the element becomes visible inside the timeout, `error` when the
wait times out and raises. -/
def waitForVisible (becomesVisible : Bool) : Except Unit Unit :=
  if becomesVisible then Except.ok () else Except.error ()

namespace ProductsPage

/-- The two wait timeouts (milliseconds) hard-coded in
`ProductsPage.is_page_loaded`. -/
def loadWaitTimeoutsMs : List Nat := [5000, 5000]

/-- Embedding of `ProductsPage.is_page_loaded`: wait for the title and the product list
to be visible; any timeout is caught and turned into `false`. -/
def is_page_loaded (titleVisible productItemsVisible : Bool) : Bool :=
  match waitForVisible titleVisible >>= fun _ =>
      waitForVisible productItemsVisible with
  | Except.ok _ => true
  | Except.error _ => false

end ProductsPage

/-- One `.cart_item` DOM fragment: the text content of its
`.inventory_item_name` child (`none` models a `None` return of
`text_content()`) together with the rest of the fragment's text
(description, price, quantity, button labels). -/
structure DomCartItem where
  nameText : Option (List Char)
  restText : List Char

/-- The full text of a `.cart_item` fragment, against which Playwright's
`filter(has_text=...)` matches. -/
def DomCartItem.fullText (it : DomCartItem) : List Char :=
  it.nameText.getD [] ++ it.restText

namespace CartPage

/-- Embedding of `CartPage.get_cart_item_names`: read every `.inventory_item_name` text,
keep the truthy ones (neither `None` nor empty), strip each. -/
def get_cart_item_names (cart : List DomCartItem) : List (List Char) :=
  (((cart.map DomCartItem.nameText).filterMap id).filter
    (fun s => !s.isEmpty)).map pyStrip

/-- Embedding of `CartPage.get_cart_item_count`: the number of `.cart_item` fragments. -/
def get_cart_item_count (cart : List DomCartItem) : Nat :=
  cart.length

/-- Embedding of `CartPage.is_cart_empty`: the count is zero. -/
def is_cart_empty (cart : List DomCartItem) : Bool :=
  get_cart_item_count cart == 0

/-- Embedding of `CartPage.remove_item`: click the remove button of the first
`.cart_item` whose text contains `item_name`.  When no fragment matches,
the click would time out and raise; the wellformedness hypotheses of the
theorems below guarantee a match always exists, so that case is modelled
as a no-op. -/
def remove_item (cart : List DomCartItem) (item_name : List Char) :
    List DomCartItem :=
  cart.eraseP (fun it => textContains it.fullText item_name)

/-- Embedding of `CartPage.remove_all_items`: read the item names once up front, then
remove each in turn. -/
def remove_all_items (cart : List DomCartItem) : List DomCartItem :=
  (get_cart_item_names cart).foldl remove_item cart

/-- Embedding of `CartPage.get_cart_item_prices` of `pages/cart_page.py`, as a function
of the displayed `.inventory_item_price` texts. -/
def get_cart_item_prices (texts : List (Option (List Char))) :
    Option (List ℚ) :=
  parsePricesLoop texts

/-- Embedding of `CartPage.calculate_items_total`: `sum(get_cart_item_prices())`. -/
def calculate_items_total (texts : List (Option (List Char))) : Option ℚ :=
  (get_cart_item_prices texts).map (fun ps => ps.sum)

/-- The two wait timeouts (milliseconds) hard-coded in
`CartPage.is_page_loaded`. -/
def loadWaitTimeoutsMs : List Nat := [5000, 5000]

/-- Embedding of `CartPage.is_page_loaded`: wait for the title and the checkout button
to be visible; any timeout is caught and turned into `false`. -/
def is_page_loaded (titleVisible checkoutButtonVisible : Bool) : Bool :=
  match waitForVisible titleVisible >>= fun _ =>
      waitForVisible checkoutButtonVisible with
  | Except.ok _ => true
  | Except.error _ => false

end CartPage

/-- What the helpers of `pages/page_helpers.py` observe of a Playwright
locator: the result of `text_content()` and the outcome of `is_visible()`
(`Except.error` models a raised exception). -/
structure LocatorModel where
  textContentResult : Option (List Char)
  isVisibleResult : Except Unit Bool

/-- Embedding of `page_helpers.get_text`: `(text or "").strip()`. -/
def get_text (locator : LocatorModel) : List Char :=
  pyStrip (locator.textContentResult.getD [])

/-- Embedding of `page_helpers.is_visible_safe`: return the underlying visibility
check's boolean, or `false` when it raises. -/
def is_visible_safe (locator : LocatorModel) : Bool :=
  match locator.isVisibleResult with
  | Except.ok b => b
  | Except.error _ => false

namespace BasePage

/-- Embedding of `BasePage.is_visible` of `pages/base_page.py`: the same
try/except-to-`False` shape as `is_visible_safe`. -/
def is_visible (locator : LocatorModel) : Bool :=
  match locator.isVisibleResult with
  | Except.ok b => b
  | Except.error _ => false

end BasePage

namespace ProductCard

/-- Embedding of `ProductCard.get_price` of `pages/components/product_card.py`:
`float(text.strip().replace("$", ""))` when the text is truthy, else
`0.0`; `none` models a raised parse error. -/
def get_price (text : Option (List Char)) : Option ℚ :=
  match text with
  | some s =>
    if s.isEmpty then some 0
    else pyFloat ((pyStrip s).filter (fun c => !(c == '$')))
  | none => some 0

end ProductCard

namespace CartItem

/-- Embedding of `CartItem.get_price` of `pages/components/cart_item.py`: identical in
shape to `ProductCard.get_price`. -/
def get_price (text : Option (List Char)) : Option ℚ :=
  match text with
  | some s =>
    if s.isEmpty then some 0
    else pyFloat ((pyStrip s).filter (fun c => !(c == '$')))
  | none => some 0

end CartItem

namespace CheckoutOverviewPage

/-- Embedding of `CheckoutOverviewPage._parse_price` of `pages/checkout/overview_page.py`:
when the text contains a `$`, take `text.split("$")[1]` (the segment after
the first `$`, up to the next one), strip it and pass it to `float`;
otherwise return `0.0`. -/
def _parse_price (text : List Char) : Option ℚ :=
  if text.contains '$' then
    pyFloat (pyStrip
      (((text.dropWhile (fun c => !(c == '$'))).drop 1).takeWhile
        (fun c => !(c == '$'))))
  else some 0

end CheckoutOverviewPage

/-- The three screens of the checkout flow. -/
inductive CheckoutState where
  | info
  | overview
  | complete
deriving DecidableEq

/-- The click-driven navigation methods defined on the checkout page
classes. -/
inductive CheckoutAction where
  | continue_checkout
  | finish
  | cancel
  | go_back_to_products
deriving DecidableEq

/-- The navigation methods each checkout page class defines, read off the
classes in `pages/checkout/`: `CheckoutInfoPage` has `continue_checkout`
and `cancel`, `CheckoutOverviewPage` has `finish` and `cancel`,
`CheckoutCompletePage` has `go_back_to_products`. -/
def checkoutPageActions : CheckoutState → List CheckoutAction
  | CheckoutState.info => [CheckoutAction.continue_checkout, CheckoutAction.cancel]
  | CheckoutState.overview => [CheckoutAction.finish, CheckoutAction.cancel]
  | CheckoutState.complete => [CheckoutAction.go_back_to_products]

/-- The forward transition of the checkout flow: `continue_checkout` takes
Info to Overview and `finish` takes Overview to Complete; Complete has no
forward transition. -/
def nextCheckoutState : CheckoutState → Option CheckoutState
  | CheckoutState.info => some CheckoutState.overview
  | CheckoutState.overview => some CheckoutState.complete
  | CheckoutState.complete => none

/-!
Supporting lemmas about the text primitives.
-/

theorem listPrefixOf_sound :
    ∀ (l₁ l₂ t : List Char), l₂ = l₁ ++ t → listPrefixOf l₁ l₂ = true := by
  intro l₁
  induction l₁ with
  | nil => intro l₂ t _; rfl
  | cons a as ih =>
    intro l₂ t h
    subst h
    simpa [listPrefixOf] using ih (as ++ t) t rfl

theorem textContains_complete :
    ∀ (s hay needle t : List Char), hay = s ++ needle ++ t →
      textContains hay needle = true := by
  intro s
  induction s with
  | nil =>
    intro hay needle t h
    cases hay with
    | nil =>
      have : needle = [] := by
        cases needle with
        | nil => rfl
        | cons b bs => simp at h
      subst this
      rfl
    | cons a h' =>
      simp only [textContains, Bool.or_eq_true]
      exact Or.inl (listPrefixOf_sound needle (a :: h') t (by simpa using h))
  | cons c s' ih =>
    intro hay needle t h
    subst h
    simp only [List.cons_append, textContains, Bool.or_eq_true]
    exact Or.inr (ih (s' ++ needle ++ t) needle t rfl)

theorem dropWhile_decomp (p : Char → Bool) :
    ∀ l : List Char, ∃ s, l = s ++ l.dropWhile p := by
  intro l
  induction l with
  | nil => exact ⟨[], rfl⟩
  | cons c t ih =>
    by_cases hc : p c = true
    · obtain ⟨s, hs⟩ := ih
      exact ⟨c :: s, by simp [List.dropWhile_cons, hc, ← hs]⟩
    · exact ⟨[], by simp [List.dropWhile_cons, hc]⟩

theorem pyStrip_decomp (l : List Char) : ∃ s t, l = s ++ pyStrip l ++ t := by
  obtain ⟨s, hs⟩ := dropWhile_decomp isPySpace l
  obtain ⟨u, hu⟩ := dropWhile_decomp isPySpace (l.dropWhile isPySpace).reverse
  have hm : l.dropWhile isPySpace = pyStrip l ++ u.reverse := by
    have h2 := congrArg List.reverse hu
    simpa [pyStrip, List.reverse_append] using h2
  refine ⟨s, u.reverse, ?_⟩
  conv_lhs => rw [hs, hm]
  rw [List.append_assoc]

theorem dropWhile_append_all (p : Char → Bool) :
    ∀ (l₁ l₂ : List Char), (∀ c ∈ l₁, p c = true) →
      (l₁ ++ l₂).dropWhile p = l₂.dropWhile p := by
  intro l₁
  induction l₁ with
  | nil => intro l₂ _; rfl
  | cons c t ih =>
    intro l₂ h
    have hc : p c = true := h c (by simp)
    simp only [List.cons_append, List.dropWhile_cons, hc, if_true]
    exact ih l₂ (fun d hd => h d (by simp [hd]))

theorem pyStrip_sandwich (pre mid post : List Char)
    (hpre : ∀ c ∈ pre, isPySpace c = true)
    (hpost : ∀ c ∈ post, isPySpace c = true)
    (hmid : ∀ c ∈ mid, isPySpace c = false)
    (hne : mid ≠ []) :
    pyStrip (pre ++ mid ++ post) = mid := by
  unfold pyStrip
  rw [List.append_assoc, dropWhile_append_all isPySpace pre (mid ++ post) hpre]
  have h1 : (mid ++ post).dropWhile isPySpace = mid ++ post := by
    cases mid with
    | nil => exact absurd rfl hne
    | cons c t =>
      have : isPySpace c = false := hmid c (by simp)
      simp [List.dropWhile_cons, this]
  rw [h1, List.reverse_append,
    dropWhile_append_all isPySpace post.reverse mid.reverse
      (fun c hc => hpost c (by simpa using hc))]
  have h2 : mid.reverse.dropWhile isPySpace = mid.reverse := by
    cases hr : mid.reverse with
    | nil => simp
    | cons c t =>
      have hcm : c ∈ mid := by
        have : c ∈ mid.reverse := by rw [hr]; simp
        simpa using this
      simp [List.dropWhile_cons, hmid c hcm]
  rw [h2, List.reverse_reverse]

theorem parseMant_chars {l : List Char} {mk : Nat × Nat}
    (h : parseMant l = some mk) :
    ∀ c ∈ l, isPyDigit c = true ∨ c = '.' := by
  intro c hc
  have hsplit := List.takeWhile_append_dropWhile isPyDigit l
  rw [← hsplit] at hc
  rcases List.mem_append.mp hc with hc1 | hc2
  · exact Or.inl (List.mem_takeWhile_imp hc1)
  · unfold parseMant at h
    cases hd : l.dropWhile isPyDigit with
    | nil => rw [hd] at hc2; simp at hc2
    | cons d frac =>
      rw [hd] at h hc2
      dsimp only at h
      by_cases hcond : (d == '.' && frac.all isPyDigit &&
          (!(l.takeWhile isPyDigit).isEmpty || !frac.isEmpty)) = true
      · have hdot : d = '.' := by
          have := hcond
          simp only [Bool.and_eq_true, beq_iff_eq] at this
          exact this.1.1
        have hfrac : ∀ x ∈ frac, isPyDigit x = true := by
          have := hcond
          simp only [Bool.and_eq_true, beq_iff_eq] at this
          exact List.all_eq_true.mp this.1.2
        rcases List.mem_cons.mp hc2 with rfl | hmem
        · exact Or.inr hdot
        · exact Or.inl (hfrac c hmem)
      · rw [if_neg hcond] at h; exact absurd h (by simp)

theorem pyFloat_chars {l : List Char} {q : ℚ} (h : pyFloat l = some q) :
    ∀ c ∈ l, isPyDigit c = true ∨ c = '.' := by
  unfold pyFloat at h
  cases hp : parseMant l with
  | none => rw [hp] at h; exact absurd h (by simp)
  | some mk => exact parseMant_chars hp

theorem digit_or_dot_not_space {c : Char}
    (h : isPyDigit c = true ∨ c = '.') : isPySpace c = false := by
  rcases h with h | rfl
  · simp only [isPyDigit, Bool.and_eq_true, decide_eq_true_eq] at h
    simp only [isPySpace, Bool.or_eq_false_iff, beq_eq_false_iff_ne, ne_eq]
    omega
  · decide

theorem digit_or_dot_ne_dollar {c : Char}
    (h : isPyDigit c = true ∨ c = '.') : (!(c == '$')) = true := by
  rcases h with h | rfl
  · simp only [Bool.not_eq_true', beq_eq_false_iff_ne, ne_eq]
    intro hc
    subst hc
    exact absurd h (by decide)
  · decide

theorem get_cart_item_names_cons {it : DomCartItem} {s : List Char}
    (h : it.nameText = some s) (hne : s ≠ []) (rest : List DomCartItem) :
    CartPage.get_cart_item_names (it :: rest) =
      pyStrip s :: CartPage.get_cart_item_names rest := by
  have hemp : s.isEmpty = false := by
    cases s with
    | nil => exact absurd rfl hne
    | cons a t => rfl
  simp [CartPage.get_cart_item_names, List.filterMap_cons, h, hemp]

theorem textContains_fullText_strippedName {it : DomCartItem} {s : List Char}
    (h : it.nameText = some s) :
    textContains it.fullText (pyStrip s) = true := by
  obtain ⟨u, v, huv⟩ := pyStrip_decomp s
  have : it.fullText = u ++ pyStrip s ++ (v ++ it.restText) := by
    simp only [DomCartItem.fullText, h, Option.getD_some]
    conv_lhs => rw [huv]
    simp [List.append_assoc]
  exact textContains_complete u it.fullText (pyStrip s) (v ++ it.restText) this

theorem remove_all_items_aux :
    ∀ cart : List DomCartItem,
      (∀ it ∈ cart, ∃ s, it.nameText = some s ∧ s ≠ []) →
      (CartPage.get_cart_item_names cart).foldl CartPage.remove_item cart = [] := by
  intro cart
  induction cart with
  | nil => intro _; rfl
  | cons it rest ih =>
    intro h
    obtain ⟨s, hs, hne⟩ := h it (by simp)
    rw [get_cart_item_names_cons hs hne rest, List.foldl_cons]
    have hremove : CartPage.remove_item (it :: rest) (pyStrip s) = rest := by
      unfold CartPage.remove_item
      rw [List.eraseP_cons, textContains_fullText_strippedName hs]
      rfl
    rw [hremove]
    exact ih (fun x hx => h x (by simp [hx]))

theorem pyRound2_cent (n : ℤ) : pyRound2 ((n : ℚ) / 100) = (n : ℚ) / 100 := by
  have h100 : ((n : ℚ) / 100) * 100 = (n : ℚ) := by
    field_simp
  unfold pyRound2 roundHalfEven
  rw [h100, Int.floor_intCast]
  have hfrac : (n : ℚ) - (n : ℤ) < 1/2 := by
    norm_num
  rw [if_pos hfrac]

theorem pyRound2_eval_3239 : pyRound2 32.39 = 32.39 := by
  have h : (32.39 : ℚ) = ((3239 : ℤ) : ℚ) / 100 := by norm_num
  rw [h, pyRound2_cent]

theorem pyRound2_eval_3238 : pyRound2 32.38 = 32.38 := by
  have h : (32.38 : ℚ) = ((3238 : ℤ) : ℚ) / 100 := by norm_num
  rw [h, pyRound2_cent]

theorem pyRound2_eval_32391 : pyRound2 32.391 = 32.39 := by
  unfold pyRound2 roundHalfEven
  have h1 : (32.391 : ℚ) * 100 = 3239.1 := by norm_num
  rw [h1]
  have h2 : Int.floor (3239.1 : ℚ) = 3239 := by norm_num
  rw [h2]
  have h3 : (3239.1 : ℚ) - ((3239 : ℤ) : ℚ) < 1/2 := by norm_num
  rw [if_pos h3]
  norm_num

/-- C1: for every `PriceSummary`, `verify_calculation()` returns `True`
exactly when `round(subtotal + tax, 2) == round(total, 2)`; in particular
it returns `True` for (29.99, 2.40, 32.39) and `False` for
(29.99, 2.40, 32.38). -/
theorem C1_verify_calculation_iff_rounded_sum :
    (∀ p : PriceSummary,
      p.verify_calculation = true ↔
        pyRound2 (p.subtotal + p.tax) = pyRound2 p.total)
    ∧ (PriceSummary.mk 29.99 2.40 32.39).verify_calculation = true
    ∧ (PriceSummary.mk 29.99 2.40 32.38).verify_calculation = false := by
  refine ⟨fun p => by simp [PriceSummary.verify_calculation], ?_, ?_⟩
  · simp only [PriceSummary.verify_calculation, decide_eq_true_eq]
    have h : (29.99 : ℚ) + 2.40 = 32.39 := by norm_num
    rw [h]
  · simp only [PriceSummary.verify_calculation, decide_eq_false_iff_not]
    have h : (29.99 : ℚ) + 2.40 = 32.39 := by norm_num
    rw [h, pyRound2_eval_3239, pyRound2_eval_3238]
    norm_num

/-- C4 counterexample: the spec's derived invariant
`total == round(subtotal + tax, 2)` is not equivalent to
`verify_calculation()`: at (29.99, 2.40, 32.391) the method returns `True`
(both sides round to 32.39) but `total` is not `round(subtotal + tax, 2)`. -/
theorem C4_counterexample_total_not_exact :
    ¬ ((PriceSummary.mk 29.99 2.40 32.391).verify_calculation = true ↔
        (32.391 : ℚ) = pyRound2 (29.99 + 2.40)) := by
  intro hiff
  have hsum : (29.99 : ℚ) + 2.40 = 32.39 := by norm_num
  have hver : (PriceSummary.mk 29.99 2.40 32.391).verify_calculation = true := by
    simp only [PriceSummary.verify_calculation, decide_eq_true_eq]
    rw [hsum, pyRound2_eval_3239, pyRound2_eval_32391]
  have h2 := hiff.mp hver
  rw [hsum, pyRound2_eval_3239] at h2
  norm_num at h2

/-- C4 (amended): `verify_calculation()` returns `True` iff
`round(total, 2) == round(subtotal + tax, 2)` — the total need only agree
with the rounded sum after itself being rounded to 2 decimal places, not
be exactly equal to it. -/
theorem C4_amended_verify_calculation (p : PriceSummary) :
    p.verify_calculation = true ↔
      pyRound2 p.total = pyRound2 (p.subtotal + p.tax) := by
  simp only [PriceSummary.verify_calculation, decide_eq_true_eq]
  exact eq_comm

/-- C4 amended witness at (29.99, 2.40, 32.391). -/
theorem C4_amended_witness :
    (PriceSummary.mk 29.99 2.40 32.391).verify_calculation = true :=
  (C4_amended_verify_calculation (PriceSummary.mk 29.99 2.40 32.391)).mpr
    (by
      have hsum : (29.99 : ℚ) + 2.40 = 32.39 := by norm_num
      show pyRound2 32.391 = pyRound2 (29.99 + 2.40)
      rw [hsum, pyRound2_eval_3239, pyRound2_eval_32391])

/-- C2: each of the four sort-verification methods is a pure comparison
returning `True` exactly when the read sequence equals the stably sorted
(per mode) version of itself; the sequence itself is not modified (the
model functions are pure and return only a boolean). -/
theorem C2_sort_verification_iff_sorted (names : List (List Char))
    (prices : List ℚ) :
    (ProductsPage.verify_products_sorted_alphabetically_asc names = true ↔
      names = pySortedStr names)
    ∧ (ProductsPage.verify_products_sorted_alphabetically_desc names = true ↔
      names = pySortedStrRev names)
    ∧ (ProductsPage.verify_products_sorted_by_price_asc prices = true ↔
      prices = pySortedRat prices)
    ∧ (ProductsPage.verify_products_sorted_by_price_desc prices = true ↔
      prices = pySortedRatRev prices) := by
  refine ⟨?_, ?_, ?_, ?_⟩
  · simp [ProductsPage.verify_products_sorted_alphabetically_asc]
  · simp [ProductsPage.verify_products_sorted_alphabetically_desc]
  · simp [ProductsPage.verify_products_sorted_by_price_asc]
  · simp [ProductsPage.verify_products_sorted_by_price_desc]

/-- Being a fixed point of the stable ascending price sort is the same as
being sorted: supporting characterization for the price-sort checks. -/
theorem pySortedRat_fixed_iff_pairwise (l : List ℚ) :
    l = pySortedRat l ↔ l.Pairwise (· ≤ ·) := by
  have hs := @List.sorted_mergeSort ℚ (fun a b => decide (a ≤ b))
    (fun a b c hab hbc => by
      simp only [decide_eq_true_eq] at hab hbc ⊢
      exact le_trans hab hbc)
    (fun a b => by
      simpa using le_total a b) l
  have hsorted : (pySortedRat l).Pairwise (· ≤ ·) := by
    unfold pySortedRat
    exact hs.imp (by simp)
  constructor
  · intro h
    rw [h]
    exact hsorted
  · intro h
    exact (List.eq_of_perm_of_sorted (List.mergeSort_perm l _) hsorted h).symm

/-- C5 counterexample: the claim that no cancel transition exists from the
Overview state is refuted by `CheckoutOverviewPage.cancel`
(`pages/checkout/overview_page.py`, lines 70-72). -/
theorem C5_counterexample_overview_has_cancel :
    CheckoutAction.cancel ∈ checkoutPageActions CheckoutState.overview := by
  decide

/-- C5 (amended): the checkout flow is a strict linear forward state
machine Info → Overview → Complete, and cancel actions exist from both
the Info state and the Overview state (and not from Complete). -/
theorem C5_amended_linear_flow_with_two_cancels :
    nextCheckoutState CheckoutState.info = some CheckoutState.overview
    ∧ nextCheckoutState CheckoutState.overview = some CheckoutState.complete
    ∧ nextCheckoutState CheckoutState.complete = none
    ∧ CheckoutAction.cancel ∈ checkoutPageActions CheckoutState.info
    ∧ CheckoutAction.cancel ∈ checkoutPageActions CheckoutState.overview
    ∧ CheckoutAction.cancel ∉ checkoutPageActions CheckoutState.complete := by
  refine ⟨rfl, rfl, rfl, ?_, ?_, ?_⟩ <;> decide

/-- C7: the load-readiness checks of the products and cart pages return
a boolean rather than raising: they yield `True` exactly when every
screen-specific landmark wait succeeds, `False` as soon as one of the
bounded waits times out, and both use a 5000 ms timeout for each wait. -/
theorem C7_is_page_loaded_bounded_boolean :
    (∀ titleVisible productItemsVisible : Bool,
      ProductsPage.is_page_loaded titleVisible productItemsVisible =
        (titleVisible && productItemsVisible))
    ∧ (∀ titleVisible checkoutButtonVisible : Bool,
      CartPage.is_page_loaded titleVisible checkoutButtonVisible =
        (titleVisible && checkoutButtonVisible))
    ∧ ProductsPage.loadWaitTimeoutsMs.all (fun t => t == 5000) = true
    ∧ CartPage.loadWaitTimeoutsMs.all (fun t => t == 5000) = true := by
  refine ⟨?_, ?_, rfl, rfl⟩ <;>
    · intro a b
      cases a <;> cases b <;> rfl

/-- C8: the visibility-safe helpers never propagate an exception:
`is_visible_safe` (and `BasePage.is_visible`, which has the same shape)
returns `False` whenever the underlying visibility check raises and the
underlying boolean otherwise, and `get_text` returns the empty string when
`text_content()` is `None` and the whitespace-stripped text otherwise. -/
theorem C8_safe_helpers_absorb_failures (locator : LocatorModel) :
    (locator.isVisibleResult = Except.error () →
      is_visible_safe locator = false)
    ∧ (∀ b, locator.isVisibleResult = Except.ok b →
      is_visible_safe locator = b)
    ∧ (locator.isVisibleResult = Except.error () →
      BasePage.is_visible locator = false)
    ∧ (∀ b, locator.isVisibleResult = Except.ok b →
      BasePage.is_visible locator = b)
    ∧ (locator.textContentResult = none → get_text locator = [])
    ∧ (∀ s, locator.textContentResult = some s →
      get_text locator = pyStrip s) := by
  refine ⟨?_, ?_, ?_, ?_, ?_, ?_⟩
  · intro h; simp [is_visible_safe, h]
  · intro b h; simp [is_visible_safe, h]
  · intro h; simp [BasePage.is_visible, h]
  · intro b h; simp [BasePage.is_visible, h]
  · intro h
    simp only [get_text, h, Option.getD_none]
    rfl
  · intro s h
    simp [get_text, h]

/-- C8 witness: a locator whose visibility check raises and whose text is
a padded name. -/
theorem C8_witness :
    is_visible_safe
      (LocatorModel.mk (some [' ', 'a', ' ']) (Except.error ())) = false
    ∧ BasePage.is_visible
      (LocatorModel.mk (some [' ', 'a', ' ']) (Except.error ())) = false
    ∧ get_text (LocatorModel.mk (some [' ', 'a', ' ']) (Except.error ())) =
      pyStrip [' ', 'a', ' '] :=
  ⟨(C8_safe_helpers_absorb_failures _).1 rfl,
    (C8_safe_helpers_absorb_failures _).2.2.1 rfl,
    (C8_safe_helpers_absorb_failures _).2.2.2.2.2 _ rfl⟩

/-- C10: the price getters return `0.0` instead of raising when the price
text is absent (`None`) or empty, and `CheckoutOverviewPage._parse_price`
returns `0.0` for any string containing no `$`. -/
theorem C10_absent_price_defaults_to_zero :
    ProductCard.get_price none = some 0
    ∧ ProductCard.get_price (some []) = some 0
    ∧ CartItem.get_price none = some 0
    ∧ CartItem.get_price (some []) = some 0
    ∧ ∀ text : List Char, text.contains '$' = false →
        CheckoutOverviewPage._parse_price text = some 0 := by
  refine ⟨rfl, rfl, rfl, rfl, ?_⟩
  intro text h
  unfold CheckoutOverviewPage._parse_price
  rw [h]
  simp

/-- C10 witness: a label with no dollar sign parses to zero. -/
theorem C10_witness :
    (['3', '2', '.', '3', '9'].contains '$' = false)
    ∧ CheckoutOverviewPage._parse_price ['3', '2', '.', '3', '9'] = some 0 :=
  ⟨by decide, C10_absent_price_defaults_to_zero.2.2.2.2 _ (by decide)⟩

/-- C6: removing each named item via `remove_all_items()` always leaves
the cart empty, for any initial cart (0..N items) whose items carry a
non-empty name text: the names are read once in DOM order, and each
removal erases the first still-present fragment whose text contains the
stripped name, which is always the fragment the name was read from. -/
theorem C6_remove_all_items_empties_cart (cart : List DomCartItem)
    (h : ∀ it ∈ cart, ∃ s, it.nameText = some s ∧ s ≠ []) :
    CartPage.is_cart_empty (CartPage.remove_all_items cart) = true := by
  unfold CartPage.remove_all_items
  rw [remove_all_items_aux cart h]
  rfl

/-- C6 witness: a two-item cart whose name texts overlap as substrings. -/
theorem C6_witness :
    (∀ it ∈ [DomCartItem.mk (some ['B', 'o', 'l', 't']) ['$', '9'],
        DomCartItem.mk (some ['B', 'o']) ['$', '2']],
      ∃ s, it.nameText = some s ∧ s ≠ [])
    ∧ CartPage.is_cart_empty (CartPage.remove_all_items
        [DomCartItem.mk (some ['B', 'o', 'l', 't']) ['$', '9'],
          DomCartItem.mk (some ['B', 'o']) ['$', '2']]) = true := by
  have h : ∀ it ∈ [DomCartItem.mk (some ['B', 'o', 'l', 't']) ['$', '9'],
      DomCartItem.mk (some ['B', 'o']) ['$', '2']],
      ∃ s, it.nameText = some s ∧ s ≠ [] := by
    intro it hit
    rcases List.mem_cons.mp hit with rfl | hit
    · exact ⟨_, rfl, by decide⟩
    rcases List.mem_cons.mp hit with rfl | hit
    · exact ⟨_, rfl, by decide⟩
    · exact absurd hit (List.not_mem_nil it)
  exact ⟨h, C6_remove_all_items_empties_cart _ h⟩

/-- C3: the cart total is the exact sum of the item prices: whenever the
displayed price texts parse (after stripping and removing `$`) to the
rationals `p_1..p_n`, `calculate_items_total` returns exactly their sum,
for every `n ≥ 0` (prices are exact rationals in the model, so no
floating-point loss occurs). -/
theorem C3_calculate_items_total_exact_sum
    (texts : List (Option (List Char))) (ps : List ℚ)
    (h : List.Forall₂ (fun t p => ∃ s, t = some s ∧ s ≠ [] ∧
      pyFloat ((pyStrip s).filter (fun c => !(c == '$'))) = some p) texts ps) :
    CartPage.calculate_items_total texts = some ps.sum := by
  have hloop : parsePricesLoop texts = some ps := by
    induction h with
    | nil => rfl
    | cons hpair hrest ih =>
      obtain ⟨s, rfl, hne, hparse⟩ := hpair
      have hemp : s.isEmpty = false := by
        cases s with
        | nil => exact absurd rfl hne
        | cons a t => rfl
      simp only [parsePricesLoop, hemp, hparse, ih]
      simp
  unfold CartPage.calculate_items_total CartPage.get_cart_item_prices
  rw [hloop]
  rfl

theorem pyFloat_eval_2999 : pyFloat ['2', '9', '.', '9', '9'] = some 29.99 := by
  have hm : parseMant ['2', '9', '.', '9', '9'] = some (2999, 2) := by decide
  unfold pyFloat
  rw [hm]
  simp only [Option.map_some']
  norm_num

theorem pyFloat_eval_999 : pyFloat ['9', '.', '9', '9'] = some 9.99 := by
  have hm : parseMant ['9', '.', '9', '9'] = some (999, 2) := by decide
  unfold pyFloat
  rw [hm]
  simp only [Option.map_some']
  norm_num

/-- C3 witness: a cart showing `$29.99` and `$9.99` totals exactly
`39.98`. -/
theorem C3_witness :
    CartPage.calculate_items_total
        [some ['$', '2', '9', '.', '9', '9'], some ['$', '9', '.', '9', '9']] =
      some (29.99 + 9.99) := by
  have h1 : (pyStrip ['$', '2', '9', '.', '9', '9']).filter
      (fun c => !(c == '$')) = ['2', '9', '.', '9', '9'] := by decide
  have h2 : (pyStrip ['$', '9', '.', '9', '9']).filter
      (fun c => !(c == '$')) = ['9', '.', '9', '9'] := by decide
  have hsum := C3_calculate_items_total_exact_sum
    [some ['$', '2', '9', '.', '9', '9'], some ['$', '9', '.', '9', '9']]
    [29.99, 9.99]
    (List.Forall₂.cons ⟨_, rfl, by decide, by rw [h1]; exact pyFloat_eval_2999⟩
      (List.Forall₂.cons ⟨_, rfl, by decide, by rw [h2]; exact pyFloat_eval_999⟩
        List.Forall₂.nil))
  simpa using hsum

/-- C9: every non-empty currency-formatted price text — optional
surrounding whitespace, a `$`, then a decimal numeral — is parsed by the
price getters by stripping the surrounding whitespace, removing the `$`
and converting the remainder to a number: each getter returns exactly the
numeral's value. -/
theorem C9_currency_string_parsing (pre ds post : List Char) (p : ℚ)
    (hpre : ∀ c ∈ pre, isPySpace c = true)
    (hpost : ∀ c ∈ post, isPySpace c = true)
    (hds : pyFloat ds = some p) :
    ProductCard.get_price (some (pre ++ ('$' :: ds) ++ post)) = some p
    ∧ CartItem.get_price (some (pre ++ ('$' :: ds) ++ post)) = some p
    ∧ ProductsPage.get_all_product_prices
        [some (pre ++ ('$' :: ds) ++ post)] = some [p] := by
  have hchars := pyFloat_chars hds
  have hmid : ∀ c ∈ ('$' :: ds), isPySpace c = false := by
    intro c hc
    rcases List.mem_cons.mp hc with rfl | hc
    · decide
    · exact digit_or_dot_not_space (hchars c hc)
  have hstrip : pyStrip (pre ++ ('$' :: ds) ++ post) = '$' :: ds :=
    pyStrip_sandwich pre ('$' :: ds) post hpre hpost hmid (by simp)
  have hfilter : (('$' : Char) :: ds).filter (fun c => !(c == '$')) = ds := by
    rw [List.filter_cons, if_neg (by decide)]
    exact List.filter_eq_self.mpr (fun c hc => digit_or_dot_ne_dollar (hchars c hc))
  have hemp : (pre ++ ('$' :: ds) ++ post).isEmpty = false := by
    cases hl : pre ++ ('$' :: ds) ++ post with
    | nil =>
      exact absurd hl (by simp)
    | cons a t => rfl
  refine ⟨?_, ?_, ?_⟩
  · unfold ProductCard.get_price
    dsimp only
    rw [hemp, if_neg (by decide : ¬(false = true)), hstrip, hfilter]
    exact hds
  · unfold CartItem.get_price
    dsimp only
    rw [hemp, if_neg (by decide : ¬(false = true)), hstrip, hfilter]
    exact hds
  · unfold ProductsPage.get_all_product_prices
    simp only [parsePricesLoop, hemp, hstrip, hfilter, hds]
    simp

/-- C9 witness: the label `$29.99` parses to 29.99 in all three
getters. -/
theorem C9_witness :
    ProductCard.get_price (some ['$', '2', '9', '.', '9', '9']) = some 29.99
    ∧ CartItem.get_price (some ['$', '2', '9', '.', '9', '9']) = some 29.99
    ∧ ProductsPage.get_all_product_prices
        [some ['$', '2', '9', '.', '9', '9']] = some [29.99] := by
  have h := C9_currency_string_parsing [] ['2', '9', '.', '9', '9'] [] 29.99
    (fun c hc => absurd hc (List.not_mem_nil c))
    (fun c hc => absurd hc (List.not_mem_nil c))
    pyFloat_eval_2999
  simpa using h
